import Mathlib

/-!
Verification of the CRYPTS crypto TUI tracker (src/crypts.py) against its
natural-language specification.  The filter pipeline of `_define_body`
(lines 173-194), the row extraction (lines 166-171), and the UI callback
handlers installed by `_define_header` / `_define_filters` / `_define_footer`
are shallowly embedded below; Python exceptions are modelled with `Except`,
and a Python float parsed from a price text is modelled exactly as a decimal
mantissa with a count of fraction digits (its rational value is recovered by
`PyNum.val`).
-/

deriving instance DecidableEq for Except

/-- One table cell of a parsed row.  `text` models BeautifulSoup's `.text`;
`pString` models `.p.string` (`none` when the cell has no `<p>` child or its
`.string` is `None`, in which case the chained attribute access raises
`AttributeError`); `caretDown` models the presence of a descendant with class
`icon-Caret-down`. -/
structure Cell where
  text : String
  pString : Option String
  caretDown : Bool
deriving DecidableEq

/-- One raw asset row (`<tr>` element): the list of its children, as accessed
by positional indexing `coin.contents[i]` in the source. -/
structure Coin where
  contents : List Cell
deriving DecidableEq

/-- The Python exceptions the embedded code can raise. -/
inductive PyError where
  | attributeError
  | indexError
  | valueError
deriving DecidableEq

/-- Filter configuration read by the pipeline: the `rows`, `filter_name`,
`filter_gtprice` and `filter_ltprice` entries of `STATE`, at the types the
pipeline's logic expects (integer row count, optional name string, numeric
price bounds). -/
structure FilterConfig where
  rows : Int
  filter_name : Option String
  filter_gtprice : ℚ
  filter_ltprice : ℚ
deriving DecidableEq

/-- Python truthiness of the `filter_name` entry: `None` and the empty string
are falsy, every other string is truthy. -/
def pyTruthy : Option String → Bool
  | none => false
  | some s => decide (s ≠ "")

/-- Python `str.lower()` on the ASCII fragment the data uses. -/
def pyLower (s : String) : String := ⟨s.data.map Char.toLower⟩

/-- Does `n` lead `h` (needle matches at the front of the haystack)? -/
def strLeads : List Char → List Char → Bool
  | [], _ => true
  | _ :: _, [] => false
  | a :: as, b :: bs => a = b && strLeads as bs

/-- Does the needle occur contiguously inside the haystack?  Models Python's
`in` operator on strings. -/
def strHasSub : List Char → List Char → Bool
  | n, [] => strLeads n []
  | n, h@(_ :: t) => strLeads n h || strHasSub n t

/-- Python's `needle in hay` for strings. -/
def pyIn (needle hay : String) : Bool := strHasSub needle.data hay.data

/-- Whitespace stripping done by Python's `float` before parsing. -/
def pyStrip (l : List Char) : List Char :=
  ((l.dropWhile Char.isWhitespace).reverse.dropWhile Char.isWhitespace).reverse

/-- Numeric value of a digit string. -/
def digitsVal (l : List Char) : ℕ :=
  l.foldl (fun a c => 10 * a + (c.toNat - 48)) 0

/-- Exact value of a successfully parsed decimal literal: a signed mantissa
and the number of fraction digits.  It denotes `mant / 10 ^ fdigits`. -/
structure PyNum where
  mant : Int
  fdigits : Nat
deriving DecidableEq

/-- The rational value a parsed decimal denotes. -/
def PyNum.val (x : PyNum) : ℚ := (x.mant : ℚ) / ((10 ^ x.fdigits : ℕ) : ℚ)

/-- The comparison `b < x` between a configured rational bound and a parsed
price, decided exactly by cross-multiplication (both denominators are
positive). -/
def ratLtNum (b : ℚ) (x : PyNum) : Bool :=
  decide (b.num * (10 : Int) ^ x.fdigits < x.mant * (b.den : Int))

/-- The comparison `x < b` between a parsed price and a configured rational
bound, decided exactly by cross-multiplication. -/
def numLtRat (x : PyNum) (b : ℚ) : Bool :=
  decide (x.mant * (b.den : Int) < b.num * (10 : Int) ^ x.fdigits)

/-- Parse an unsigned decimal literal: digits with an optional single decimal
point and digits on at least one side.  Anything else (commas, currency
symbols, letters) is rejected, as Python's `float` rejects it. -/
def pyFloatCore (l : List Char) : Option PyNum :=
  let ip := l.takeWhile Char.isDigit
  let r1 := l.dropWhile Char.isDigit
  match r1 with
  | [] => if ip.isEmpty then none else some ⟨digitsVal ip, 0⟩
  | '.' :: r2 =>
    let fp := r2.takeWhile Char.isDigit
    let r3 := r2.dropWhile Char.isDigit
    if r3.isEmpty then
      if ip.isEmpty && fp.isEmpty then none
      else some ⟨digitsVal ip * 10 ^ fp.length + digitsVal fp, fp.length⟩
    else none
  | _ => none

/-- Python's `float(s)` on a string, restricted to the plain signed decimal
literals relevant here (no exponents, infinities or underscores).  `none`
models the `ValueError` that `float` raises, e.g. on text with thousands
separators or currency symbols such as `"$1,234.56"`. -/
def pyFloat (s : String) : Option PyNum :=
  match pyStrip s.data with
  | '+' :: r => pyFloatCore r
  | '-' :: r => (pyFloatCore r).map (fun x => ⟨-x.mant, x.fdigits⟩)
  | l => pyFloatCore l

/-- The name expression `coin.contents[2].p.string.lower()` of line 181:
`IndexError` when the row has at most two cells, `AttributeError` when the
`<p>` descendant or its string is missing. -/
def Coin.nameLower (c : Coin) : Except PyError String :=
  match c.contents.get? 2 with
  | none => .error .indexError
  | some cell =>
    match cell.pString with
    | none => .error .attributeError
    | some s => .ok (pyLower s)

/-- The price expression `coin.contents[3].text` of lines 188 and 193. -/
def Coin.priceText (c : Coin) : Except PyError String :=
  match c.contents.get? 3 with
  | none => .error .indexError
  | some cell => .ok cell.text

/-- `float(coin.contents[3].text)`: `ValueError` when the text is not a plain
decimal literal. -/
def priceVal (c : Coin) : Except PyError PyNum :=
  Except.bind (c.priceText) fun t =>
    match pyFloat t with
    | none => .error .valueError
    | some q => .ok q

/-- Predicate of the name list comprehension (lines 179-182); the needle is
already lowercased. -/
def namePred (needle : String) (c : Coin) : Except PyError Bool :=
  (c.nameLower).map (fun nm => pyIn needle nm)

/-- Predicate of the lower-bound comprehension (lines 186-189):
`STATE["filter_gtprice"] < float(coin.contents[3].text)`. -/
def gtPred (b : ℚ) (c : Coin) : Except PyError Bool :=
  (priceVal c).map (fun x => ratLtNum b x)

/-- Predicate of the upper-bound comprehension (lines 190-194):
`STATE["filter_ltprice"] > float(coin.contents[3].text)`. -/
def ltPred (b : ℚ) (c : Coin) : Except PyError Bool :=
  (priceVal c).map (fun x => numLtRat x b)

/-- A Python list comprehension whose predicate may raise: elements are kept
in order; the first raised exception aborts the whole comprehension. -/
def filterE {α : Type} (p : α → Except PyError Bool) : List α → Except PyError (List α)
  | [] => .ok []
  | a :: as =>
    Except.bind (p a) fun b =>
      Except.bind (filterE p as) fun rest =>
        .ok (if b then a :: rest else rest)

/-- Row-limit step (lines 174-175): slice to the first `rows` records when
`rows > 0`, otherwise leave the list untouched. -/
def rowLimitStep (rows : Int) (coins : List Coin) : List Coin :=
  if 0 < rows then coins.take rows.toNat else coins

/-- Name-filter step (lines 178-182), guarded by the truthiness of
`STATE["filter_name"]`. -/
def nameStep (fn : Option String) (coins : List Coin) : Except PyError (List Coin) :=
  if pyTruthy fn then filterE (namePred (pyLower (fn.getD ""))) coins else .ok coins

/-- Lower price bound step (lines 185-189), guarded by the truthiness of
`STATE["filter_gtprice"]`. -/
def gtStep (b : ℚ) (coins : List Coin) : Except PyError (List Coin) :=
  if b ≠ 0 then filterE (gtPred b) coins else .ok coins

/-- Upper price bound step (lines 190-194), guarded by the truthiness of
`STATE["filter_ltprice"]`. -/
def ltStep (b : ℚ) (coins : List Coin) : Except PyError (List Coin) :=
  if b ≠ 0 then filterE (ltPred b) coins else .ok coins

/-- The filter pipeline of `_define_body`, lines 173-194: the successive
reassignments of `coins_raw`, with exceptions propagating. -/
def applyFilters (cfg : FilterConfig) (coins0 : List Coin) : Except PyError (List Coin) :=
  Except.bind
      (if pyTruthy cfg.filter_name then
        filterE (namePred (pyLower (cfg.filter_name.getD "")))
          (if 0 < cfg.rows then coins0.take cfg.rows.toNat else coins0)
      else .ok (if 0 < cfg.rows then coins0.take cfg.rows.toNat else coins0))
    fun coins2 =>
  Except.bind
      (if cfg.filter_gtprice ≠ 0 then filterE (gtPred cfg.filter_gtprice) coins2
       else .ok coins2)
    fun coins3 =>
  if cfg.filter_ltprice ≠ 0 then filterE (ltPred cfg.filter_ltprice) coins3
  else .ok coins3

/-- Boolean name-match a well-formed record satisfies after the name step. -/
def nameMatches (fname : String) (c : Coin) : Bool :=
  match c.nameLower with
  | .ok s => pyIn (pyLower fname) s
  | .error _ => false

/-- The alternative order the spec's design note contrasts with the source.
Modelled from the spec: "source limits rows *before* filtering by name/price
(row-limit applied first to the unfiltered top-N)" — this definition instead
filters the full list by name and price first and truncates last, so that the
source's limit-then-filter order can be compared against it. -/
def filterThenLimitSpec (cfg : FilterConfig) (coins : List Coin) : Except PyError (List Coin) :=
  Except.bind (nameStep cfg.filter_name coins) fun l1 =>
  Except.bind (gtStep cfg.filter_gtprice l1) fun l2 =>
  Except.bind (ltStep cfg.filter_ltprice l2) fun l3 =>
  .ok (rowLimitStep cfg.rows l3)

/-- A well-formed row with a name cell at index 2 and a price cell at
index 3, the positions `_define_body` reads during filtering. -/
def mkCoin (nm pr : String) : Coin :=
  ⟨[⟨"", none, false⟩, ⟨"", none, false⟩, ⟨nm, some nm, false⟩, ⟨pr, some pr, false⟩]⟩

def coinBitcoin : Coin := mkCoin "Bitcoin" "117000.5"

def coinEthereum : Coin := mkCoin "Ethereum" "4100.2"

def coinBitcoinCash : Coin := mkCoin "Bitcoin Cash" "520.75"

/-- The three-record list of the spec's Scenario B. -/
def demo3 : List Coin := [coinBitcoin, coinEthereum, coinBitcoinCash]

/-- Twelve raw records, as in the spec's Scenario A. -/
def coins12 : List Coin := (List.range 12).map (fun i => mkCoin (toString i) "1")

/-- A Python value held in the `STATE` dictionary: the initial entries are
ints, while every `InputField` `on_change` callback stores the field's string
value. -/
inductive PyVal where
  | vInt (n : Int)
  | vStr (s : String)
deriving DecidableEq

/-- The mutable `STATE` dictionary (lines 31-38). -/
structure AppState where
  refresh : Bool
  delay : PyVal
  rows : PyVal
  filter_name : Option String
  filter_gtprice : PyVal
  filter_ltprice : PyVal
deriving DecidableEq

/-- The initial `STATE` (lines 31-38). -/
def state0 : AppState := ⟨false, .vInt 5, .vInt 10, none, .vInt 0, .vInt 0⟩

/-- Checkbox callback of line 137: `STATE.update({"refresh": val})`. -/
def toggleRefresh (val : Bool) (s : AppState) : AppState := { s with refresh := val }

/-- Delay field callback of line 140: `STATE.update({"delay": val})` with the
field's string value — no validation, no rejection. -/
def setDelay (val : String) (s : AppState) : AppState := { s with delay := .vStr val }

/-- Rows field callback of line 143. -/
def setRows (val : String) (s : AppState) : AppState := { s with rows := .vStr val }

/-- Name field callback of line 153: `STATE.update({"filter_name": val or None})`,
so an empty entry is stored as `None`. -/
def setFilterName (val : String) (s : AppState) : AppState :=
  { s with filter_name := if val = "" then none else some val }

/-- Lower-price field callback of line 157. -/
def setGtPrice (val : String) (s : AppState) : AppState :=
  { s with filter_gtprice := .vStr val }

/-- Upper-price field callback of line 161. -/
def setLtPrice (val : String) (s : AppState) : AppState :=
  { s with filter_ltprice := .vStr val }

/-- Every user-interface callback the source registers after startup
(`_define_header`, `_define_filters`, `_define_footer`).  The source creates
no timer and registers no other callback, so no further event kind exists;
in particular nothing fires from the passage of time. -/
inductive UIEvent where
  | evToggleRefresh (b : Bool)
  | evEditDelay (v : String)
  | evEditRows (v : String)
  | evEditName (v : String)
  | evEditGt (v : String)
  | evEditLt (v : String)
  | evClickRefreshNow
deriving DecidableEq

/-- Effect of each callback on `STATE`, paired with whether the callback
starts a fetch cycle.  The `Refresh Now` button's callback is
`lambda *_: None` (line 237, marked Placeholder): it changes nothing and
fetches nothing; no callback reads `STATE["refresh"]` or `STATE["delay"]`. -/
def handleEvent : UIEvent → AppState → AppState × Bool
  | .evToggleRefresh b, s => (toggleRefresh b s, false)
  | .evEditDelay v, s => (setDelay v s, false)
  | .evEditRows v, s => (setRows v s, false)
  | .evEditName v, s => (setFilterName v s, false)
  | .evEditGt v, s => (setGtPrice v s, false)
  | .evEditLt v, s => (setLtPrice v s, false)
  | .evClickRefreshNow, s => (s, false)

/-- Number of fetch cycles started by a sequence of UI events after startup. -/
def cyclesTriggered : List UIEvent → AppState → Nat
  | [], _ => 0
  | e :: es, s =>
    (if (handleEvent e s).2 then 1 else 0) + cyclesTriggered es (handleEvent e s).1

/-- `tbody` element: its `find_all("tr")` result. -/
structure Tbody where
  rows : List Coin
deriving DecidableEq

/-- `table` element: its first `tbody` descendant, or `none` when missing
(BeautifulSoup attribute access yields `None`). -/
structure HtmlTable where
  tbody : Option Tbody
deriving DecidableEq

/-- Parsed document: its first `table` descendant, or `none` when missing. -/
structure Soup where
  table : Option HtmlTable
deriving DecidableEq

/-- Row extraction of line 171, `soup.table.tbody.find_all(name="tr")`:
chained attribute access on a missing element raises `AttributeError`. -/
def extractRows (s : Soup) : Except PyError (List Coin) :=
  match s.table with
  | none => .error .attributeError
  | some t =>
    match t.tbody with
    | none => .error .attributeError
    | some tb => .ok tb.rows

/-- The fetch-extract-filter part of `_define_body` (lines 166-194): extract
the rows and run the filter pipeline; the subsequent widget construction
consumes the result and is outside the modelled core.  An `error` result
models an exception escaping `_define_body`, leaving no row set at all. -/
def defineBody (cfg : FilterConfig) (soup : Soup) : Except PyError (List Coin) :=
  Except.bind (extractRows soup) fun coins => applyFilters cfg coins

/-- `main` (lines 246-258) calls `_define_body` once with no `try`/`except`
anywhere on the path, so an `error` result here models an uncaught exception
terminating the application. -/
def mainRun (cfg : FilterConfig) (soup : Soup) : Except PyError (List Coin) :=
  defineBody cfg soup

/-- A document with no `table` element. -/
def soupNoTable : Soup := ⟨none⟩

/-- A document whose table holds a single structurally deficient row with no
cells at all. -/
def soupShortRow : Soup := ⟨some ⟨some ⟨[⟨[]⟩]⟩⟩⟩

/-! ### Helper lemmas -/

theorem bind_ok {α β : Type} {x : Except PyError α} {f : α → Except PyError β} {b : β}
    (h : Except.bind x f = .ok b) : ∃ a, x = .ok a ∧ f a = .ok b := by
  cases x with
  | error e => exact Except.noConfusion h
  | ok a => exact ⟨a, rfl, h⟩

theorem map_ok {α β : Type} {x : Except PyError α} {f : α → β} {b : β}
    (h : Except.map f x = .ok b) : ∃ a, x = .ok a ∧ f a = b := by
  cases x with
  | error e => exact Except.noConfusion h
  | ok a => exact ⟨a, rfl, by injection h⟩

theorem filterE_ok_mem {α : Type} {p : α → Except PyError Bool} {l out : List α}
    (h : filterE p l = .ok out) : ∀ c ∈ out, p c = .ok true ∧ c ∈ l := by
  induction l generalizing out with
  | nil =>
    injection h with h
    subst h
    intro c hc
    exact absurd hc (List.not_mem_nil c)
  | cons a as ih =>
    obtain ⟨b, hpa, h2⟩ := bind_ok h
    obtain ⟨rest, hrest, h3⟩ := bind_ok h2
    injection h3 with h3
    intro c hc
    cases b with
    | true =>
      rw [if_pos rfl] at h3
      subst h3
      rcases List.mem_cons.mp hc with hca | hcr
      · subst hca
        exact ⟨hpa, List.mem_cons_self c as⟩
      · obtain ⟨hp, hm⟩ := ih hrest c hcr
        exact ⟨hp, List.mem_cons_of_mem a hm⟩
    | false =>
      rw [if_neg Bool.false_ne_true] at h3
      subst h3
      obtain ⟨hp, hm⟩ := ih hrest c hc
      exact ⟨hp, List.mem_cons_of_mem a hm⟩

theorem filterE_sublist {α : Type} {p : α → Except PyError Bool} {l out : List α}
    (h : filterE p l = .ok out) : out.Sublist l := by
  induction l generalizing out with
  | nil =>
    injection h with h
    subst h
    exact List.Sublist.refl []
  | cons a as ih =>
    obtain ⟨b, hpa, h2⟩ := bind_ok h
    obtain ⟨rest, hrest, h3⟩ := bind_ok h2
    injection h3 with h3
    cases b with
    | true =>
      rw [if_pos rfl] at h3
      subst h3
      exact (ih hrest).cons₂ a
    | false =>
      rw [if_neg Bool.false_ne_true] at h3
      subst h3
      exact (ih hrest).cons a

theorem filterE_eq_filter {α : Type} (p : α → Except PyError Bool) (q : α → Bool)
    (l : List α) (h : ∀ c ∈ l, p c = .ok (q c)) :
    filterE p l = .ok (l.filter q) := by
  induction l with
  | nil => rfl
  | cons a as ih =>
    have ha := h a (List.mem_cons_self a as)
    have ih2 := ih (fun c hc => h c (List.mem_cons_of_mem a hc))
    show Except.bind (p a) _ = _
    rw [ha, ih2]
    show Except.ok (if q a then a :: as.filter q else as.filter q) = _
    cases hq : q a with
    | true => rw [if_pos rfl, List.filter_cons_of_pos hq]
    | false => rw [if_neg Bool.false_ne_true, List.filter_cons_of_neg (by simp [hq])]

theorem rowLimitStep_sublist (rows : Int) (coins : List Coin) :
    (rowLimitStep rows coins).Sublist coins := by
  unfold rowLimitStep
  by_cases h : 0 < rows
  · rw [if_pos h]; exact List.take_sublist _ _
  · rw [if_neg h]

theorem nameStep_sublist {fn : Option String} {l out : List Coin}
    (h : nameStep fn l = .ok out) : out.Sublist l := by
  unfold nameStep at h
  by_cases hp : pyTruthy fn = true
  · rw [if_pos hp] at h; exact filterE_sublist h
  · rw [if_neg hp] at h; injection h with h; subst h; exact List.Sublist.refl l

theorem gtStep_sublist {b : ℚ} {l out : List Coin}
    (h : gtStep b l = .ok out) : out.Sublist l := by
  unfold gtStep at h
  by_cases hb : b ≠ 0
  · rw [if_pos hb] at h; exact filterE_sublist h
  · rw [if_neg hb] at h; injection h with h; subst h; exact List.Sublist.refl l

theorem ltStep_sublist {b : ℚ} {l out : List Coin}
    (h : ltStep b l = .ok out) : out.Sublist l := by
  unfold ltStep at h
  by_cases hb : b ≠ 0
  · rw [if_pos hb] at h; exact filterE_sublist h
  · rw [if_neg hb] at h; injection h with h; subst h; exact List.Sublist.refl l

/-- The pipeline is definitionally the four-step composition. -/
theorem applyFilters_steps (cfg : FilterConfig) (coins : List Coin) :
    applyFilters cfg coins =
      Except.bind (nameStep cfg.filter_name (rowLimitStep cfg.rows coins)) fun l2 =>
        Except.bind (gtStep cfg.filter_gtprice l2) fun l3 =>
          ltStep cfg.filter_ltprice l3 := rfl

/-- Cross-multiplication agrees with the rational order, lower-bound form. -/
theorem ratLtNum_iff (b : ℚ) (x : PyNum) : ratLtNum b x = true ↔ b < x.val := by
  have hd : (0 : ℚ) < ((10 ^ x.fdigits : ℕ) : ℚ) := by positivity
  have hbden : (0 : ℚ) < (b.den : ℚ) := by exact_mod_cast b.pos
  have hb : (b.num : ℚ) = b * (b.den : ℚ) := (div_eq_iff hbden.ne').mp (Rat.num_div_den b)
  have e1 : b * ((10 ^ x.fdigits : ℕ) : ℚ) * (b.den : ℚ)
      = ((b.num * (10 : Int) ^ x.fdigits : Int) : ℚ) := by
    push_cast
    rw [hb]
    ring
  have e2 : (x.mant : ℚ) * (b.den : ℚ) = ((x.mant * (b.den : Int) : Int) : ℚ) := by
    push_cast
    ring
  rw [ratLtNum, decide_eq_true_eq, PyNum.val, lt_div_iff₀ hd, ← mul_lt_mul_right hbden,
    e1, e2, Int.cast_lt]

/-- Cross-multiplication agrees with the rational order, upper-bound form. -/
theorem numLtRat_iff (x : PyNum) (b : ℚ) : numLtRat x b = true ↔ x.val < b := by
  have hd : (0 : ℚ) < ((10 ^ x.fdigits : ℕ) : ℚ) := by positivity
  have hbden : (0 : ℚ) < (b.den : ℚ) := by exact_mod_cast b.pos
  have hb : (b.num : ℚ) = b * (b.den : ℚ) := (div_eq_iff hbden.ne').mp (Rat.num_div_den b)
  have e1 : b * ((10 ^ x.fdigits : ℕ) : ℚ) * (b.den : ℚ)
      = ((b.num * (10 : Int) ^ x.fdigits : Int) : ℚ) := by
    push_cast
    rw [hb]
    ring
  have e2 : (x.mant : ℚ) * (b.den : ℚ) = ((x.mant * (b.den : Int) : Int) : ℚ) := by
    push_cast
    ring
  rw [numLtRat, decide_eq_true_eq, PyNum.val, div_lt_iff₀ hd, ← mul_lt_mul_right hbden,
    e2, e1, Int.cast_lt]

/-! ### Claim theorems -/

/-- C1: with no name or price filters active, `applyFilters` with a positive
row limit returns exactly the first `min(rowLimit, |input|)` records in
source rank order (so the output length is at most the limit), and with
`rowLimit = 0` the row-limit step keeps every record and the pipeline
returns the input unchanged. -/
theorem C1_row_limit (coins : List Coin) (rows : Int) :
    (0 < rows →
      applyFilters ⟨rows, none, 0, 0⟩ coins = .ok (coins.take rows.toNat) ∧
      (coins.take rows.toNat).length = min rows.toNat coins.length ∧
      (coins.take rows.toNat).length ≤ rows.toNat) ∧
    (rows = 0 →
      rowLimitStep rows coins = coins ∧
      applyFilters ⟨rows, none, 0, 0⟩ coins = .ok coins) := by
  have base : ∀ r : Int, applyFilters ⟨r, none, 0, 0⟩ coins = .ok (rowLimitStep r coins) := by
    intro r
    rw [applyFilters_steps]
    simp [nameStep, gtStep, ltStep, pyTruthy, Except.bind]
  constructor
  · intro h
    refine ⟨?_, List.length_take _ _, ?_⟩
    · rw [base rows]
      unfold rowLimitStep
      rw [if_pos h]
    · rw [List.length_take]
      exact min_le_left _ _
  · intro h
    subst h
    have hrl : rowLimitStep (0 : Int) coins = coins := by
      unfold rowLimitStep
      rw [if_neg (by decide : ¬ (0 : Int) < 0)]
    refine ⟨hrl, ?_⟩
    rw [base 0, hrl]

/-- C1 witness: Scenario A, twelve records and a row limit of five. -/
theorem C1_row_limit_witness :
    applyFilters ⟨5, none, 0, 0⟩ coins12 = .ok (coins12.take 5) :=
  ((C1_row_limit coins12 5).1 (by decide)).1

/-- C2: the pipeline applies row-limit truncation first, then the name
filter, then the lower and then the upper price bound, each step narrowing
the previous one; consequently, on the Scenario-B records with row limit 2
and name substring "bit", the source's limit-then-filter order yields a
single qualifying row even though two qualify in the full list (as the
spec-modelled filter-then-limit order shows). -/
theorem C2_limit_before_filters :
    (∀ (cfg : FilterConfig) (coins : List Coin),
      applyFilters cfg coins =
        Except.bind (nameStep cfg.filter_name (rowLimitStep cfg.rows coins)) fun l2 =>
          Except.bind (gtStep cfg.filter_gtprice l2) fun l3 =>
            ltStep cfg.filter_ltprice l3) ∧
    applyFilters ⟨2, some "bit", 0, 0⟩ demo3 = .ok [coinBitcoin] ∧
    filterThenLimitSpec ⟨2, some "bit", 0, 0⟩ demo3 = .ok [coinBitcoin, coinBitcoinCash] :=
  ⟨fun _ _ => rfl, by decide, by decide⟩

/-- C9: whatever the configuration, a successful `applyFilters` run returns a
subsequence of its input: every output record appears in the input and any
two output records keep their relative source order (the embedding is a pure
function, so no record is mutated). -/
theorem C9_subsequence (cfg : FilterConfig) (coins out : List Coin)
    (h : applyFilters cfg coins = .ok out) : out.Sublist coins := by
  rw [applyFilters_steps] at h
  obtain ⟨l2, h2, hrest⟩ := bind_ok h
  obtain ⟨l3, h3, h4⟩ := bind_ok hrest
  exact (((ltStep_sublist h4).trans (gtStep_sublist h3)).trans (nameStep_sublist h2)).trans
    (rowLimitStep_sublist cfg.rows coins)

/-- C9 witness: the Scenario-B run keeps Bitcoin and Bitcoin Cash as a
subsequence of the three input records. -/
theorem C9_subsequence_witness :
    List.Sublist [coinBitcoin, coinBitcoinCash] demo3 :=
  C9_subsequence ⟨0, some "bit", 0, 0⟩ demo3 [coinBitcoin, coinBitcoinCash] (by decide)

/-- C5: with the name filter set (non-empty) and every record carrying a
readable name, the pipeline with only the name filter active keeps exactly
the records whose lowercased name contains the lowercased substring, in
order; on the Scenario-B names, "bit" keeps Bitcoin and Bitcoin Cash and
excludes Ethereum. -/
theorem C5_name_filter (fname : String) (coins : List Coin)
    (h1 : fname ≠ "")
    (h2 : ∀ c ∈ coins, ∃ s, c.nameLower = Except.ok s) :
    applyFilters ⟨0, some fname, 0, 0⟩ coins = .ok (coins.filter (nameMatches fname)) ∧
    (∀ c, c ∈ coins.filter (nameMatches fname) ↔ c ∈ coins ∧ nameMatches fname c = true) ∧
    applyFilters ⟨0, some "bit", 0, 0⟩ demo3 = .ok [coinBitcoin, coinBitcoinCash] := by
  refine ⟨?_, fun c => List.mem_filter, by decide⟩
  rw [applyFilters_steps]
  show Except.bind (nameStep (some fname) (rowLimitStep 0 coins)) _ = _
  have hrl : rowLimitStep (0 : Int) coins = coins := by
    unfold rowLimitStep
    rw [if_neg (by decide : ¬ (0 : Int) < 0)]
  rw [hrl]
  have hstep : nameStep (some fname) coins = .ok (coins.filter (nameMatches fname)) := by
    unfold nameStep
    have ht : pyTruthy (some fname) = true := decide_eq_true h1
    rw [if_pos ht]
    apply filterE_eq_filter
    intro c hc
    obtain ⟨s, hs⟩ := h2 c hc
    unfold namePred nameMatches
    rw [hs]
    rfl
  rw [hstep]
  show Except.bind (Except.ok _) _ = _
  simp [gtStep, ltStep, Except.bind]

/-- C5 witness: Scenario B instantiated with substring "bit". -/
theorem C5_name_filter_witness :
    applyFilters ⟨0, some "bit", 0, 0⟩ demo3 = .ok (demo3.filter (nameMatches "bit")) :=
  (C5_name_filter "bit" demo3 (by decide) (by
    intro c hc
    simp only [demo3, List.mem_cons, List.not_mem_nil, or_false] at hc
    rcases hc with rfl | rfl | rfl <;> exact ⟨_, rfl⟩)).1

/-- C4: in every successful run, a surviving record's parsed price satisfies
the strict exclusive bound for whichever of `minPrice` and `maxPrice` is set
(non-zero), so no record violating a set bound survives; a bound equal to
zero leaves the corresponding step inactive, filtering nothing. -/
theorem C4_price_bounds (cfg : FilterConfig) (coins out : List Coin)
    (h : applyFilters cfg coins = .ok out) :
    (cfg.filter_gtprice ≠ 0 →
      ∀ c ∈ out, ∃ x : PyNum, priceVal c = .ok x ∧ cfg.filter_gtprice < x.val) ∧
    (cfg.filter_ltprice ≠ 0 →
      ∀ c ∈ out, ∃ x : PyNum, priceVal c = .ok x ∧ x.val < cfg.filter_ltprice) ∧
    (∀ l, gtStep 0 l = .ok l) ∧
    (∀ l, ltStep 0 l = .ok l) := by
  rw [applyFilters_steps] at h
  obtain ⟨l2, h2, hrest⟩ := bind_ok h
  obtain ⟨l3, h3, h4⟩ := bind_ok hrest
  refine ⟨?_, ?_, ?_, ?_⟩
  · intro hgt c hc
    have hc3 : c ∈ l3 := by
      unfold ltStep at h4
      by_cases hlt : cfg.filter_ltprice ≠ 0
      · rw [if_pos hlt] at h4
        exact (filterE_ok_mem h4 c hc).2
      · rw [if_neg hlt] at h4
        injection h4 with h4
        rw [h4]
        exact hc
    unfold gtStep at h3
    rw [if_pos hgt] at h3
    obtain ⟨x, hx, hb⟩ := map_ok (filterE_ok_mem h3 c hc3).1
    exact ⟨x, hx, (ratLtNum_iff _ _).mp hb⟩
  · intro hlt c hc
    unfold ltStep at h4
    rw [if_pos hlt] at h4
    obtain ⟨x, hx, hb⟩ := map_ok (filterE_ok_mem h4 c hc).1
    exact ⟨x, hx, (numLtRat_iff _ _).mp hb⟩
  · intro l
    unfold gtStep
    rw [if_neg (not_not_intro rfl)]
  · intro l
    unfold ltStep
    rw [if_neg (not_not_intro rfl)]

/-- C4 witness: both bounds set (1000 and 2000), one record with parsed
price 1500 surviving both. -/
theorem C4_price_bounds_witness :
    ((1000 : ℚ) ≠ 0 →
      ∀ c ∈ [mkCoin "A" "1500"], ∃ x : PyNum, priceVal c = .ok x ∧ (1000 : ℚ) < x.val) ∧
    ((2000 : ℚ) ≠ 0 →
      ∀ c ∈ [mkCoin "A" "1500"], ∃ x : PyNum, priceVal c = .ok x ∧ x.val < (2000 : ℚ)) ∧
    (∀ l, gtStep 0 l = .ok l) ∧
    (∀ l, ltStep 0 l = .ok l) :=
  C4_price_bounds ⟨0, none, 1000, 2000⟩ [mkCoin "A" "1500"] [mkCoin "A" "1500"] (by decide)

/-- C3 (code bug): the source parses price text with bare `float`, which
does not tolerate thousands separators or currency symbols: `"$1,234.56"`
fails to parse while the plain `"1234.56"` parses to 1234.56, and with
`minPrice = 1000` set the price step raises `ValueError` on the record,
aborting the whole body with no output instead of including the record as
the spec requires (with only the name filter active the record is still
included). -/
theorem C3_unparseable_price :
    pyFloat "$1,234.56" = none ∧
    pyFloat "1234.56" = some ⟨123456, 2⟩ ∧
    applyFilters ⟨0, none, 1000, 0⟩ [mkCoin "X" "$1,234.56"] = .error .valueError ∧
    applyFilters ⟨0, some "x", 0, 0⟩ [mkCoin "X" "$1,234.56"] = .ok [mkCoin "X" "$1,234.56"] :=
  ⟨by decide, by decide, by decide, by decide⟩

/-- C6 (code bug): the source has no scheduler.  `STATE["refresh"]` and
`STATE["delay"]` are written by callbacks but never read, no timer is ever
created, and the `Refresh Now` button's callback is a placeholder doing
nothing — so after the single fetch performed during startup, no sequence of
UI events (including enabling auto-refresh or pressing `Refresh Now`) ever
triggers another fetch cycle. -/
theorem C6_no_auto_refresh :
    (∀ s, handleEvent UIEvent.evClickRefreshNow s = (s, false)) ∧
    (∀ evs s, cyclesTriggered evs s = 0) := by
  have hev : ∀ (e : UIEvent) (s : AppState), (handleEvent e s).2 = false := by
    intro e s
    cases e <;> rfl
  refine ⟨fun s => rfl, ?_⟩
  intro evs
  induction evs with
  | nil => intro s; rfl
  | cons e es ih =>
    intro s
    show (if (handleEvent e s).2 = true then 1 else 0) + cyclesTriggered es (handleEvent e s).1 = 0
    rw [hev e s, if_neg Bool.false_ne_true, ih, Nat.zero_add]

/-- C7 counterexample: on a document with no table element, extraction
raises the builtin `AttributeError` — not a classified `ParseError` — and
since `main` installs no handler anywhere, the exception escapes `mainRun`:
it is fatal to the process, and there is no scheduler timer to continue. -/
theorem C7_counterexample :
    extractRows soupNoTable = .error PyError.attributeError ∧
    mainRun ⟨0, none, 0, 0⟩ soupNoTable = .error PyError.attributeError :=
  ⟨rfl, rfl⟩

/-- C7 amended: if the table or its body is missing, extraction fails with
the builtin `AttributeError` and the cycle yields no partial row set, but
the failure is an uncaught exception propagating out of `main` (fatal)
rather than a classified `ParseError`; a row missing an expected cell
likewise aborts the filter step with `IndexError`, which also propagates. -/
theorem C7_missing_structure (cfg : FilterConfig) (soup : Soup)
    (h : soup.table = none ∨ ∃ t, soup.table = some t ∧ t.tbody = none) :
    extractRows soup = .error PyError.attributeError ∧
    mainRun cfg soup = .error PyError.attributeError ∧
    mainRun ⟨0, some "a", 0, 0⟩ soupShortRow = .error PyError.indexError := by
  have hex : extractRows soup = .error PyError.attributeError := by
    rcases h with h | ⟨t, ht, htb⟩
    · simp [extractRows, h]
    · simp [extractRows, ht, htb]
  refine ⟨hex, ?_, by decide⟩
  unfold mainRun defineBody
  rw [hex]
  rfl

/-- C7 witness: the amended statement at the table-less document. -/
theorem C7_missing_structure_witness :
    extractRows soupNoTable = .error PyError.attributeError ∧
    mainRun ⟨0, none, 0, 0⟩ soupNoTable = .error PyError.attributeError ∧
    mainRun ⟨0, some "a", 0, 0⟩ soupShortRow = .error PyError.indexError :=
  C7_missing_structure ⟨0, none, 0, 0⟩ soupNoTable (Or.inl rfl)

/-- C8 counterexample: entering "0" in the delay field stores it verbatim
in `STATE["delay"]` — the prior valid value 5 is not retained, and the
stored value is the widget's string, not a positive integer; a subsequent
"-3" likewise replaces whatever was stored. -/
theorem C8_counterexample :
    (setDelay "0" state0).delay = PyVal.vStr "0" ∧
    (setDelay "0" state0).delay ≠ PyVal.vInt 5 ∧
    (setDelay "-3" (setDelay "7" state0)).delay = PyVal.vStr "-3" :=
  ⟨rfl, by decide, rfl⟩

/-- C8 amended: the delay input performs no validation at all — every
entered value is stored verbatim (as the widget's string) in
`STATE["delay"]`, replacing the prior value whether or not the entry is a
positive integer; the rest of the state is untouched. -/
theorem C8_no_validation (val : String) (s : AppState) :
    (setDelay val s).delay = PyVal.vStr val ∧
    (setDelay val s).refresh = s.refresh ∧
    (setDelay val s).rows = s.rows :=
  ⟨rfl, rfl, rfl⟩

/-- C10: clearing the name field stores `None` (the entered empty string
maps to the unset value), in which case the name-filter step keeps every
record; the name filter is active exactly when the entered string is
non-empty. -/
theorem C10_empty_name_unset (val : String) (s : AppState) (coins : List Coin) :
    (setFilterName "" s).filter_name = none ∧
    nameStep (setFilterName "" s).filter_name coins = .ok coins ∧
    pyTruthy (setFilterName val s).filter_name = decide (val ≠ "") := by
  refine ⟨rfl, ?_, ?_⟩
  · show nameStep none coins = .ok coins
    unfold nameStep
    rw [if_neg (by decide : ¬ pyTruthy none = true)]
  · show pyTruthy (if val = "" then none else some val) = decide (val ≠ "")
    by_cases hv : val = ""
    · subst hv
      decide
    · rw [if_neg hv]
      rfl
